import Mathlib

/-
Verification development for the FITC (Fully Independent Training Conditional)
approximate Gaussian-process inference engine implemented in
src/shogun/machine/gp/FITCInferenceMethod.cpp.

Scalars are modelled by an abstract field R; the transcendental functions
(exp, log, sqrt, pi) and the dense-algebra operations that the source obtains
from the external linear-algebra provider (Eigen: Cholesky factorization and
triangular/LLT solves) are modelled as uninterpreted operations bundled in
`AlgebraOps`.  The engine state mirrors the member fields of the C++ class;
each pipeline stage is a pure state transformer translated line by line from
the source.
-/

namespace FITC

open Matrix

/-- Operations supplied by the external matrix/vector algebra provider and the
scalar math library: `cholU A` is the upper Cholesky factor of `A`
(`LLT::matrixU`), `solveUpper U b` solves `U x = b` for upper-triangular `U`
(`triangularView<Upper>().solve`), `solveUpperT U b` solves `Uᵀ x = b`
(`triangularView<Upper>().adjoint().solve`), `lltSolve A b` solves `A x = b`
through the LLT object of `A` (`LLT::solve`).  Vector variants act on a single
column. -/
structure AlgebraOps (R : Type) where
  exp : R → R
  log : R → R
  sqrt : R → R
  pi : R
  cholU : ∀ {k : Nat}, Matrix (Fin k) (Fin k) R → Matrix (Fin k) (Fin k) R
  solveUpper : ∀ {k l : Nat}, Matrix (Fin k) (Fin k) R → Matrix (Fin k) (Fin l) R → Matrix (Fin k) (Fin l) R
  solveUpperT : ∀ {k l : Nat}, Matrix (Fin k) (Fin k) R → Matrix (Fin k) (Fin l) R → Matrix (Fin k) (Fin l) R
  solveUpperVec : ∀ {k : Nat}, Matrix (Fin k) (Fin k) R → (Fin k → R) → (Fin k → R)
  solveUpperTVec : ∀ {k : Nat}, Matrix (Fin k) (Fin k) R → (Fin k → R) → (Fin k → R)
  lltSolve : ∀ {k : Nat}, Matrix (Fin k) (Fin k) R → Matrix (Fin k) (Fin k) R → Matrix (Fin k) (Fin k) R

/-- The engine state of `FITCInferenceMethod` with `m` inducing points and `n`
training points.  The first block holds the hyperparameters and the outputs of
the external providers (covariance provider: `kuu`, `ktru`, `ktrtr_diag`;
labels `y`; mean provider `meanVec`; Gaussian likelihood noise `sigma` and the
likelihood model name used in error messages).  The second block holds the
cached factorization state recomputed by `update`, the third the
derivative-support quantities recomputed by `update_deriv`, then the lazily
recomputed predictive outputs and the staleness bookkeeping
(`gradient_update` is the `m_gradient_update` flag; `paramHash` is the hash of
the current hyperparameters and `recordedHash` the one stored by
`update_parameter_hash`).  `nUpdates` and `nDerivUpdates` count how many times
`update` and `update_deriv` have run (call-count instrumentation for the
idempotence property). -/
structure State (R : Type) (m n : Nat) where
  log_scale : R
  log_ind_noise : R
  sigma : R
  modelName : String
  kuu : Matrix (Fin m) (Fin m) R
  ktru : Matrix (Fin m) (Fin n) R
  ktrtr_diag : Fin n → R
  y : Fin n → R
  meanVec : Fin n → R
  chol_uu : Matrix (Fin m) (Fin m) R
  V : Matrix (Fin m) (Fin n) R
  t : Fin n → R
  chol_utr : Matrix (Fin m) (Fin m) R
  r : Fin n → R
  be : Fin m → R
  L : Matrix (Fin m) (Fin m) R
  alpha : Fin m → R
  al : Fin n → R
  B : Matrix (Fin m) (Fin n) R
  w : Fin m → R
  Rvdd : Matrix (Fin m) (Fin n) R
  mu : Fin n → R
  Sigma : Matrix (Fin n) (Fin n) R
  gradient_update : Bool
  paramHash : Nat
  recordedHash : Nat
  nUpdates : Nat
  nDerivUpdates : Nat

variable {R : Type} [Field R] {m n : Nat}

/-- The staleness guard: the hash of the current hyperparameters differs from
the hash recorded at the last `update`/`compute_gradient`. -/
def parameter_hash_changed (s : State R m n) : Bool :=
  s.paramHash != s.recordedHash

/-- Math::sq. -/
def sq (x : R) : R := x * x

/-- The scale factor `std::exp(m_log_scale * 2.0)` applied to every kernel
block. -/
def scale2 (ops : AlgebraOps R) (s : State R m n) : R :=
  ops.exp (s.log_scale * 2)

/-- Argument of the first Cholesky factorization in `update_chol`, source
lines 168-171: `Kuu * exp(2 log_scale) + exp(log_ind_noise) * I`. -/
def luu_arg (ops : AlgebraOps R) (s : State R m n) : Matrix (Fin m) (Fin m) R :=
  scale2 ops s • s.kuu + ops.exp s.log_ind_noise • (1 : Matrix (Fin m) (Fin m) R)

/-- `m_chol_uu`, source line 178: upper Cholesky factor of `luu_arg`. -/
def chol_uu_of (ops : AlgebraOps R) (s : State R m n) : Matrix (Fin m) (Fin m) R :=
  ops.cholU (luu_arg ops s)

/-- `m_V`, source lines 183-186: `V = Luuᵀ \ (Ktru * exp(2 log_scale))`. -/
def V_of (ops : AlgebraOps R) (s : State R m n) : Matrix (Fin m) (Fin n) R :=
  ops.solveUpperT (chol_uu_of ops s) (scale2 ops s • s.ktru)

/-- The pre-inverted quantity `dg = diag(K)*exp(2 log_scale) + sigma^2 -
colSums(V .* V)`, source lines 195-197.  `t` is its elementwise
reciprocal. -/
def dg_of (ops : AlgebraOps R) (s : State R m n) : Fin n → R :=
  fun i => s.ktrtr_diag i * scale2 ops s + sq s.sigma - ∑ k, V_of ops s k i * V_of ops s k i

/-- `m_t`, source line 198: elementwise reciprocal of `dg`
(`Ones.cwiseQuotient`), taken without any positivity check. -/
def t_of (ops : AlgebraOps R) (s : State R m n) : Fin n → R :=
  fun i => 1 / dg_of ops s i

/-- Argument of the second Cholesky factorization, source lines 202-203:
`V * diag(ones .* t) * Vᵀ + I`. -/
def lu_arg (ops : AlgebraOps R) (s : State R m n) : Matrix (Fin m) (Fin m) R :=
  V_of ops s * Matrix.diagonal (fun i => 1 * t_of ops s i) * (V_of ops s)ᵀ + 1

/-- `m_chol_utr`, source line 210: upper Cholesky factor of `lu_arg`. -/
def chol_utr_of (ops : AlgebraOps R) (s : State R m n) : Matrix (Fin m) (Fin m) R :=
  ops.cholU (lu_arg ops s)

/-- `sqrt_t`, source line 219. -/
def sqrt_t_of (ops : AlgebraOps R) (s : State R m n) : Fin n → R :=
  fun i => ops.sqrt (t_of ops s i)

/-- `m_r`, source line 226: `(y - mean) .* sqrt(t)`. -/
def r_of (ops : AlgebraOps R) (s : State R m n) : Fin n → R :=
  fun i => (s.y i - s.meanVec i) * sqrt_t_of ops s i

/-- `m_be`, source lines 232-233: `Luᵀ \ (V * (r .* sqrt(t)))`. -/
def be_of (ops : AlgebraOps R) (s : State R m n) : Fin m → R :=
  ops.solveUpperTVec (chol_utr_of ops s)
    (Matrix.mulVec (V_of ops s) (fun i => r_of ops s i * sqrt_t_of ops s i))

/-- `iKuu`, source line 237: the LLT object of `luu_arg` solved against the
identity. -/
def iKuu_chol_of (ops : AlgebraOps R) (s : State R m n) : Matrix (Fin m) (Fin m) R :=
  ops.lltSolve (luu_arg ops s) 1

/-- `eigen_prod = chol_utr * chol_uu`, source line 240. -/
def prod_of (ops : AlgebraOps R) (s : State R m n) : Matrix (Fin m) (Fin m) R :=
  chol_utr_of ops s * chol_uu_of ops s

/-- `m_L`, source lines 245-247: `(Lu*Luu)ᵀ` solved against the identity, then
`(Lu*Luu)` solved against the result, minus `iKuu`. -/
def postL_of (ops : AlgebraOps R) (s : State R m n) : Matrix (Fin m) (Fin m) R :=
  ops.solveUpper (prod_of ops s) (ops.solveUpperT (prod_of ops s) 1) - iKuu_chol_of ops s

/-- `update_chol`, source lines 151-248: recomputes the factorization fields
from the provider outputs and hyperparameters. -/
def update_chol (ops : AlgebraOps R) (s : State R m n) : State R m n :=
  { s with
    chol_uu := chol_uu_of ops s
    V := V_of ops s
    t := t_of ops s
    chol_utr := chol_utr_of ops s
    r := r_of ops s
    be := be_of ops s
    L := postL_of ops s }

/-- `update_alpha`, source lines 250-267: `alpha = Luu \ (Lu \ be)` via two
upper-triangular solves on the state written by `update_chol`. -/
def update_alpha (ops : AlgebraOps R) (s : State R m n) : State R m n :=
  { s with alpha := ops.solveUpperVec s.chol_uu (ops.solveUpperVec s.chol_utr s.be) }

/-- `update`, source lines 75-86: base-class update (the covariance/mean
provider outputs held in the state are re-evaluated; with fixed features and
hyperparameters they are unchanged), then `update_chol`, `update_alpha`,
clearing `m_gradient_update` and recording the hyperparameter hash.  The
`nUpdates` counter instruments the call. -/
def update (ops : AlgebraOps R) (s : State R m n) : State R m n :=
  let s1 := update_alpha ops (update_chol ops s)
  { s1 with
    gradient_update := false
    recordedHash := s1.paramHash
    nUpdates := s1.nUpdates + 1 }

/-- `update_deriv`, source lines 269-329: recomputes the derivative-support
quantities `al`, `B`, `w`, `Rvdd` from the factorization state. -/
def update_deriv (ops : AlgebraOps R) (s : State R m n) : State R m n :=
  let al : Fin n → R := fun i =>
    ((s.y i - s.meanVec i) -
      Matrix.mulVec (s.V)ᵀ (ops.solveUpperVec s.chol_utr s.be) i) * s.t i
  let iKuu : Matrix (Fin m) (Fin m) R :=
    ops.solveUpper s.chol_uu (ops.solveUpperT s.chol_uu 1)
  let B : Matrix (Fin m) (Fin n) R := scale2 ops s • (iKuu * s.ktru)
  let w : Fin m → R := Matrix.mulVec B al
  let W : Matrix (Fin m) (Fin n) R :=
    ops.solveUpperT s.chol_utr (s.V * Matrix.diagonal (fun i => 1 * s.t i))
  { s with al := al, B := B, w := w, Rvdd := W }

/-- Modelled from the spec: the base-class `Inference::compute_gradient`
(not under src/) re-runs `update()` when the hyperparameter hash has
changed, so that gradient paths always start from a fresh factorization. -/
def base_compute_gradient (ops : AlgebraOps R) (s : State R m n) : State R m n :=
  if parameter_hash_changed s then update ops s else s

/-- `compute_gradient`, source lines 63-73: base-class compute_gradient, then,
when `m_gradient_update` is unset, `update_deriv` followed by setting the flag
and recording the hash.  The `nDerivUpdates` counter instruments the
`update_deriv` call. -/
def compute_gradient (ops : AlgebraOps R) (s : State R m n) : State R m n :=
  let s1 := base_compute_gradient ops s
  if s1.gradient_update then s1
  else
    let s2 := update_deriv ops s1
    { s2 with
      gradient_update := true
      recordedHash := s2.paramHash
      nDerivUpdates := s2.nDerivUpdates + 1 }

/-- `get_negative_log_marginal_likelihood`, source lines 126-149: triggers
`update` when the hyperparameter hash changed and returns
`sum(log(diag(chol_utr))) + (-sum(log(t)) + r.dot(r) - be.dot(be) +
n*log(2*pi)) / 2` computed on the (possibly refreshed) cached state.  Returns
the read state together with the scalar. -/
def get_negative_log_marginal_likelihood (ops : AlgebraOps R) (s : State R m n) :
    State R m n × R :=
  let s' := if parameter_hash_changed s then update ops s else s
  (s',
    (∑ i, ops.log (s'.chol_utr i i)) +
      (-(∑ i, ops.log (s'.t i)) + (∑ i, s'.r i * s'.r i) - (∑ i, s'.be i * s'.be i) +
        (n : R) * ops.log (2 * ops.pi)) / 2)

/-- `get_posterior_mean`, source lines 332-360: triggers `compute_gradient`,
then returns `exp(2 log_scale) * Ktruᵀ * alpha` (the FITC-approximated
posterior mean; the commented-out exact-equivalent-prior formula is not
translated because it is unreachable), caching it in `mu`. -/
def get_posterior_mean (ops : AlgebraOps R) (s : State R m n) :
    State R m n × (Fin n → R) :=
  let s' := compute_gradient ops s
  let muv : Fin n → R := fun i =>
    ops.exp (s'.log_scale * 2) * Matrix.mulVec (s'.ktru)ᵀ s'.alpha i
  ({ s' with mu := muv }, muv)

/-- `part1` of `get_posterior_covariance`, source lines 394-395:
`Vᵀ * (Lu solved against the identity)`. -/
def cov_part1 (ops : AlgebraOps R) (s : State R m n) : Matrix (Fin n) (Fin m) R :=
  (s.V)ᵀ * ops.solveUpper s.chol_utr (1 : Matrix (Fin m) (Fin m) R)

/-- `part2` of `get_posterior_covariance`, source lines 397-398:
`Ktrtr_diag * exp(2 log_scale) - colSums(V .* V)`. -/
def cov_part2 (ops : AlgebraOps R) (s : State R m n) : Fin n → R :=
  fun i => s.ktrtr_diag i * ops.exp (s.log_scale * 2) - ∑ k, s.V k i * s.V k i

/-- `get_posterior_covariance`, source lines 362-402: triggers
`compute_gradient`, then returns `part1 * part1ᵀ + diag(part2)`, caching it in
`Sigma`.  The commented-out exact-equivalent-prior formula is not translated
because it is unreachable. -/
def get_posterior_covariance (ops : AlgebraOps R) (s : State R m n) :
    State R m n × Matrix (Fin n) (Fin n) R :=
  let s' := compute_gradient ops s
  let Sig := cov_part1 ops s' * (cov_part1 ops s')ᵀ + Matrix.diagonal (cov_part2 ops s')
  ({ s' with Sigma := Sig }, Sig)

/-- The rendered message of the `require` in
`get_derivative_wrt_likelihood_model`, source lines 408-410 (the apostrophe of
the source text is spelled through its character code to keep the file
ASCII-lexer friendly; `nagative` is a typo present in the source). -/
def deriv_err_msg (modelName paramName : String) : String :=
  "Can" ++ String.singleton (Char.ofNat 39) ++
    "t compute derivative of the nagative log marginal likelihood wrt " ++
    modelName ++ "." ++ paramName ++ " parameter"

/-- `get_derivative_wrt_likelihood_model`, source lines 404-431: fails unless
the parameter name is `log_sigma`; otherwise returns
`sq(sigma) * (sum(ones .* t) - sum(Rvdd .* Rvdd) - al.dot(al))`. -/
def get_derivative_wrt_likelihood_model (s : State R m n) (paramName : String) :
    Except String R :=
  if paramName = "log_sigma" then
    Except.ok (sq s.sigma *
      ((∑ i, 1 * s.t i) - (∑ i, ∑ j, s.Rvdd i j * s.Rvdd i j) -
        (∑ i, s.al i * s.al i)))
  else Except.error (deriv_err_msg s.modelName paramName)

/-- Modelled from the spec: the base-class caller path for gradient accessors
(not under src/) routes every request through `compute_gradient` before
dispatching to `get_derivative_wrt_likelihood_model`, so the formula always
reads derivative quantities of the current hyperparameter generation. -/
def derivative_accessor (ops : AlgebraOps R) (s : State R m n) (paramName : String) :
    State R m n × Except String R :=
  let s' := compute_gradient ops s
  (s', get_derivative_wrt_likelihood_model s' paramName)

/-- The inference-type tag of the base `Inference` hierarchy
(`get_inference_type`); only the constructors relevant here are listed. -/
inductive InferenceType where
  | INF_NONE
  | INF_EXACT
  | INF_FITC_REGRESSION
  | INF_LAPLACE_SINGLE
  deriving DecidableEq, Repr

/-- A generic inference object as seen by the down-cast helper: only its
dynamic inference-type tag matters. -/
structure InferenceObj where
  inferenceType : InferenceType
  deriving DecidableEq, Repr

/-- `obtain_from_generic`, source lines 88-98: a null handle is returned as
null (no error); a non-null object whose inference type is not
`INF_FITC_REGRESSION` raises an error; otherwise the object itself is returned
(the `as` cast). -/
def obtain_from_generic (inference : Option InferenceObj) :
    Except String (Option InferenceObj) :=
  match inference with
  | none => Except.ok none
  | some inf =>
    if inf.inferenceType = InferenceType.INF_FITC_REGRESSION then
      Except.ok (some inf)
    else
      Except.error "Provided inference is not of type FITCInferenceMethod!"

/-- The negative-log-marginal-likelihood formula exactly as the specification
states it: `sum(log(diag(Lu))) + (-sum(log(t)) + r.r - be.be + n*log(2*pi)) / 2`
over the cached quantities of a state. -/
def nlml_spec_formula (ops : AlgebraOps R) (s : State R m n) : R :=
  (∑ i, ops.log (s.chol_utr i i)) +
    (-(∑ i, ops.log (s.t i)) + (∑ i, s.r i * s.r i) - (∑ i, s.be i * s.be i) +
      (n : R) * ops.log (2 * ops.pi)) / 2

/-- The likelihood derivative formula exactly as the specification states it:
`sigma^2 * (sum(t) - sum(Rvdd .* Rvdd) - al.al)`. -/
def deriv_lik_spec_formula (s : State R m n) : R :=
  s.sigma ^ 2 *
    ((∑ i, s.t i) - (∑ i, ∑ j, s.Rvdd i j * s.Rvdd i j) - (∑ i, s.al i * s.al i))

/-- The posterior-mean formula exactly as the specification states it:
`exp(2 log_scale) * Ktruᵀ * alpha`. -/
def posterior_mean_spec_formula (ops : AlgebraOps R) (s : State R m n) : Fin n → R :=
  fun i => ops.exp (2 * s.log_scale) * Matrix.mulVec (s.ktru)ᵀ s.alpha i

/-- A concrete instantiation of the external algebra provider over the
rationals, used to evaluate the engine on concrete states.  The engine treats
the provider as a black box, so any instantiation exercises the control flow
of the core. -/
def dummyOps : AlgebraOps ℚ where
  exp := fun _ => 1
  log := fun _ => 0
  sqrt := fun x => x
  pi := 0
  cholU := fun A => A
  solveUpper := fun _ b => b
  solveUpperT := fun _ b => b
  solveUpperVec := fun _ v => v
  solveUpperTVec := fun _ v => v
  lltSolve := fun _ b => b

/-- A concrete engine state with one inducing and one training point, a clean
hyperparameter hash and an up-to-date gradient flag. -/
def exState : State ℚ 1 1 where
  log_scale := 0
  log_ind_noise := 0
  sigma := 1
  modelName := "GaussianLikelihood"
  kuu := Matrix.of fun _ _ => 1
  ktru := Matrix.of fun _ _ => 0
  ktrtr_diag := fun _ => 1
  y := fun _ => 1
  meanVec := fun _ => 0
  chol_uu := Matrix.of fun _ _ => 1
  V := Matrix.of fun _ _ => 0
  t := fun _ => 1
  chol_utr := Matrix.of fun _ _ => 1
  r := fun _ => 0
  be := fun _ => 0
  L := Matrix.of fun _ _ => 0
  alpha := fun _ => 0
  al := fun _ => 0
  B := Matrix.of fun _ _ => 0
  w := fun _ => 0
  Rvdd := Matrix.of fun _ _ => 0
  mu := fun _ => 0
  Sigma := Matrix.of fun _ _ => 0
  gradient_update := true
  paramHash := 0
  recordedHash := 0
  nUpdates := 0
  nDerivUpdates := 0

/-- `exState` with a stale gradient flag. -/
def exStateStale : State ℚ 1 1 := { exState with gradient_update := false }

/-- `exState` with a training-inducing covariance large enough that the
pre-inverted quantity `dg` of `update_chol` goes negative. -/
def exStateBad : State ℚ 1 1 := { exState with ktru := Matrix.of fun _ _ => 2 }

/-- `exState` with a different stale derivative vector `al`. -/
def exStateAl : State ℚ 1 1 := { exState with al := fun _ => 5 }

lemma parameter_hash_changed_update (ops : AlgebraOps R) (s : State R m n) :
    parameter_hash_changed (update ops s) = false := by
  simp [parameter_hash_changed, update, update_alpha, update_chol]

lemma get_nlml_clean (ops : AlgebraOps R) (s : State R m n)
    (h : parameter_hash_changed s = false) :
    get_negative_log_marginal_likelihood ops s = (s, nlml_spec_formula ops s) := by
  simp [get_negative_log_marginal_likelihood, nlml_spec_formula, h]

lemma compute_gradient_clean_noop (ops : AlgebraOps R) (s : State R m n)
    (h1 : parameter_hash_changed s = false) (h2 : s.gradient_update = true) :
    compute_gradient ops s = s := by
  simp [compute_gradient, base_compute_gradient, h1, h2]

lemma compute_gradient_clean_stale (ops : AlgebraOps R) (s : State R m n)
    (h1 : parameter_hash_changed s = false) (h2 : s.gradient_update = false) :
    compute_gradient ops s =
      { update_deriv ops s with
        gradient_update := true
        recordedHash := (update_deriv ops s).paramHash
        nDerivUpdates := (update_deriv ops s).nDerivUpdates + 1 } := by
  simp [compute_gradient, base_compute_gradient, h1, h2]

lemma compute_gradient_preserves (ops : AlgebraOps R) (s : State R m n)
    (h : parameter_hash_changed s = false) :
    (compute_gradient ops s).V = s.V ∧ (compute_gradient ops s).chol_utr = s.chol_utr ∧
      (compute_gradient ops s).ktrtr_diag = s.ktrtr_diag ∧
      (compute_gradient ops s).log_scale = s.log_scale := by
  cases h2 : s.gradient_update
  · rw [compute_gradient_clean_stale ops s h h2]; exact ⟨rfl, rfl, rfl, rfl⟩
  · rw [compute_gradient_clean_noop ops s h h2]; exact ⟨rfl, rfl, rfl, rfl⟩

lemma mul_transpose_add_diagonal_symm {k : Nat} (A : Matrix (Fin n) (Fin k) R)
    (d : Fin n → R) (i j : Fin n) :
    (A * Aᵀ + Matrix.diagonal d) i j = (A * Aᵀ + Matrix.diagonal d) j i := by
  have hsym : (A * Aᵀ + Matrix.diagonal d)ᵀ = A * Aᵀ + Matrix.diagonal d := by
    rw [Matrix.transpose_add, Matrix.transpose_mul, Matrix.transpose_transpose,
      Matrix.diagonal_transpose]
  calc (A * Aᵀ + Matrix.diagonal d) i j
      = (A * Aᵀ + Matrix.diagonal d)ᵀ j i := by rw [Matrix.transpose_apply]
    _ = (A * Aᵀ + Matrix.diagonal d) j i := by rw [hsym]

lemma get_posterior_covariance_val (ops : AlgebraOps R) (s : State R m n) :
    (get_posterior_covariance ops s).2 =
      cov_part1 ops (compute_gradient ops s) * (cov_part1 ops (compute_gradient ops s))ᵀ +
        Matrix.diagonal (cov_part2 ops (compute_gradient ops s)) := rfl

lemma derivative_accessor_stale_val (ops : AlgebraOps R) (s : State R m n)
    (paramName : String) (h1 : parameter_hash_changed s = false)
    (h2 : s.gradient_update = false) :
    (derivative_accessor ops s paramName).2 =
      get_derivative_wrt_likelihood_model (update_deriv ops s) paramName := by
  show get_derivative_wrt_likelihood_model (compute_gradient ops s) paramName = _
  rw [compute_gradient_clean_stale ops s h1 h2]
  rfl

/-- Claim C1: `get_negative_log_marginal_likelihood` triggers `update` exactly
when the hyperparameter hash changed, and returns
`sum(log(diag(Lu))) + (-sum(log(t)) + r.r - be.be + n*log(2*pi)) / 2`
evaluated on the cached quantities of the state produced by the latest
`update`. -/
theorem nlml_returns_spec_formula_of_latest_update (ops : AlgebraOps R) (s : State R m n) :
    get_negative_log_marginal_likelihood ops s =
      (if parameter_hash_changed s then update ops s else s,
        nlml_spec_formula ops (if parameter_hash_changed s then update ops s else s)) := rfl

/-- Claim C2, counterexample: on a concrete input whose pre-inverted quantity
`dg` has a negative entry, `update` returns normally (it is a total function:
the source performs no check before the elementwise reciprocal) and the
cached `t` has a negative entry, contradicting the claimed error and the
claimed positivity of `t`. -/
theorem update_reciprocal_unchecked_cex :
    dg_of dummyOps exStateBad 0 < 0 ∧ (update dummyOps exStateBad).t 0 < 0 := by
  have h : dg_of dummyOps exStateBad 0 = -2 := by
    simp [dg_of, V_of, scale2, chol_uu_of, luu_arg, sq, dummyOps, exStateBad, exState,
      Fin.sum_univ_one, Matrix.smul_apply, Matrix.of_apply]
    norm_num
  constructor
  · rw [h]; norm_num
  · have ht : (update dummyOps exStateBad).t 0 = 1 / dg_of dummyOps exStateBad 0 := rfl
    rw [ht, h]; norm_num

/-- Claim C2, amended: `update` performs no positivity check and never raises;
the elementwise reciprocal is taken unconditionally, so an entry of the cached
`t` is strictly positive iff the corresponding entry of the pre-inverted
quantity `dg` is strictly positive. -/
theorem update_t_pos_iff_dg_pos {F : Type} [LinearOrderedField F] {m n : Nat}
    (ops : AlgebraOps F) (s : State F m n) (i : Fin n) :
    0 < (update ops s).t i ↔ 0 < dg_of ops s i := by
  have h : (update ops s).t i = 1 / dg_of ops s i := rfl
  rw [h]; exact one_div_pos

/-- Claim C3: `get_derivative_wrt_likelihood_model` called with parameter name
log_sigma returns `sigma^2 * (sum(t) - sum(Rvdd .* Rvdd) - al.al)` over the
cached quantities, with sigma the noise scale of the Gaussian likelihood
provider. -/
theorem deriv_lik_log_sigma_formula (s : State R m n) :
    get_derivative_wrt_likelihood_model s "log_sigma" =
      Except.ok (deriv_lik_spec_formula s) := by
  simp [get_derivative_wrt_likelihood_model, deriv_lik_spec_formula, sq, pow_two, one_mul]

/-- Claim C4: every parameter name other than log_sigma makes
`get_derivative_wrt_likelihood_model` fail with an error whose message
contains the offending name. -/
theorem deriv_lik_unsupported_param (s : State R m n) (paramName : String)
    (h : paramName ≠ "log_sigma") :
    ∃ msg, get_derivative_wrt_likelihood_model s paramName = Except.error msg ∧
      ∃ a b, msg = a ++ paramName ++ b := by
  refine ⟨deriv_err_msg s.modelName paramName, ?_, ?_⟩
  · simp [get_derivative_wrt_likelihood_model, h]
  · exact ⟨"Can" ++ String.singleton (Char.ofNat 39) ++
      "t compute derivative of the nagative log marginal likelihood wrt " ++
      s.modelName ++ ".", " parameter", rfl⟩

/-- Claim C4, witness: the name wrong_name produces an error naming
wrong_name. -/
theorem deriv_lik_unsupported_param_witness :
    ("wrong_name" ≠ "log_sigma") ∧
      ∃ msg, get_derivative_wrt_likelihood_model exState "wrong_name" = Except.error msg ∧
        ∃ a b, msg = a ++ "wrong_name" ++ b :=
  ⟨by decide, deriv_lik_unsupported_param exState "wrong_name" (by decide)⟩

/-- Claim C5: `get_posterior_mean` first runs `compute_gradient` and then
returns `exp(2 log_scale) * Ktruᵀ * alpha` over the resulting cached state
(the FITC-approximated posterior mean; the exact-posterior alternate formula
is unreachable in the source and is not part of the definition). -/
theorem posterior_mean_is_fitc_formula (ops : AlgebraOps R) (s : State R m n) :
    (get_posterior_mean ops s).1 =
      { compute_gradient ops s with
        mu := posterior_mean_spec_formula ops (compute_gradient ops s) } ∧
    (get_posterior_mean ops s).2 =
      posterior_mean_spec_formula ops (compute_gradient ops s) := by
  have hexp : posterior_mean_spec_formula ops (compute_gradient ops s) = fun i =>
      ops.exp ((compute_gradient ops s).log_scale * 2) *
        Matrix.mulVec ((compute_gradient ops s).ktru)ᵀ (compute_gradient ops s).alpha i := by
    funext i
    unfold posterior_mean_spec_formula
    rw [mul_comm (2 : R)]
  rw [hexp]
  exact ⟨rfl, rfl⟩

/-- Claim C6: the matrix returned by `get_posterior_covariance`, which equals
`part1 * part1ᵀ` plus a diagonal matrix, is symmetric: entry (i, j) equals
entry (j, i). -/
theorem posterior_covariance_symmetric (ops : AlgebraOps R) (s : State R m n) (i j : Fin n) :
    (get_posterior_covariance ops s).2 i j = (get_posterior_covariance ops s).2 j i := by
  rw [get_posterior_covariance_val]
  exact mul_transpose_add_diagonal_symm
    (cov_part1 ops (compute_gradient ops s)) (cov_part2 ops (compute_gradient ops s)) i j

/-- Claim C7: a second `get_negative_log_marginal_likelihood` call without a
hyperparameter change reads only the cached state: it returns the same value
and the same state, triggering no further `update` (the `nUpdates` counter is
unchanged); and `compute_gradient` is a no-op whenever the gradient flag is
up to date and the hash is unchanged. -/
theorem nlml_second_call_reads_cache (ops : AlgebraOps R) (s s0 : State R m n)
    (h1 : parameter_hash_changed s0 = false) (h2 : s0.gradient_update = true) :
    get_negative_log_marginal_likelihood ops
        ((get_negative_log_marginal_likelihood ops s).1) =
      get_negative_log_marginal_likelihood ops s ∧
    ((get_negative_log_marginal_likelihood ops
        ((get_negative_log_marginal_likelihood ops s).1)).1).nUpdates =
      ((get_negative_log_marginal_likelihood ops s).1).nUpdates ∧
    compute_gradient ops s0 = s0 := by
  have hkey : parameter_hash_changed ((get_negative_log_marginal_likelihood ops s).1) = false := by
    cases hb : parameter_hash_changed s
    · have h' : (get_negative_log_marginal_likelihood ops s).1 = s := by
        simp [get_negative_log_marginal_likelihood, hb]
      rw [h']; exact hb
    · have h' : (get_negative_log_marginal_likelihood ops s).1 = update ops s := by
        simp [get_negative_log_marginal_likelihood, hb]
      rw [h']; exact parameter_hash_changed_update ops s
  have hsecond : get_negative_log_marginal_likelihood ops
      ((get_negative_log_marginal_likelihood ops s).1) =
      get_negative_log_marginal_likelihood ops s := by
    rw [get_nlml_clean ops _ hkey]
    rfl
  exact ⟨hsecond, by rw [hsecond], compute_gradient_clean_noop ops s0 h1 h2⟩

/-- Claim C7, witness: on a concrete clean state the second call coincides
with the first and `compute_gradient` is a no-op. -/
theorem nlml_second_call_reads_cache_witness :
    parameter_hash_changed exState = false ∧ exState.gradient_update = true ∧
      get_negative_log_marginal_likelihood dummyOps
          ((get_negative_log_marginal_likelihood dummyOps exState).1) =
        get_negative_log_marginal_likelihood dummyOps exState ∧
      compute_gradient dummyOps exState = exState :=
  ⟨rfl, rfl,
    (nlml_second_call_reads_cache dummyOps exState exState rfl rfl).1,
    (nlml_second_call_reads_cache dummyOps exState exState rfl rfl).2.2⟩

/-- Claim C8: the gradient accessor path routes through `compute_gradient`
before reading the derivative quantities; when the cached derivative state is
stale, the formula is evaluated on the quantities recomputed by
`update_deriv`, and the stale values of al, B, w, Rvdd have no effect on the
result. -/
theorem gradient_accessor_never_reads_stale_deriv (ops : AlgebraOps R) (s : State R m n)
    (paramName : String) (h1 : parameter_hash_changed s = false)
    (h2 : s.gradient_update = false) :
    (derivative_accessor ops s paramName).1 = compute_gradient ops s ∧
    (derivative_accessor ops s paramName).2 =
      get_derivative_wrt_likelihood_model (update_deriv ops s) paramName ∧
    ∀ al0 B0 w0 Rvdd0,
      (derivative_accessor ops
          { s with al := al0, B := B0, w := w0, Rvdd := Rvdd0 } paramName).2 =
        (derivative_accessor ops s paramName).2 := by
  refine ⟨rfl, derivative_accessor_stale_val ops s paramName h1 h2, ?_⟩
  intro al0 B0 w0 Rvdd0
  rw [derivative_accessor_stale_val ops
      ({ s with al := al0, B := B0, w := w0, Rvdd := Rvdd0 }) paramName h1 h2,
    derivative_accessor_stale_val ops s paramName h1 h2]
  rfl

/-- Claim C8, witness: on a concrete stale state the accessor reads the
recomputed quantities through `compute_gradient`. -/
theorem gradient_accessor_never_reads_stale_deriv_witness :
    parameter_hash_changed exStateStale = false ∧ exStateStale.gradient_update = false ∧
      (derivative_accessor dummyOps exStateStale "log_sigma").1 =
        compute_gradient dummyOps exStateStale ∧
      (derivative_accessor dummyOps exStateStale "log_sigma").2 =
        get_derivative_wrt_likelihood_model (update_deriv dummyOps exStateStale) "log_sigma" :=
  ⟨rfl, rfl,
    (gradient_accessor_never_reads_stale_deriv dummyOps exStateStale "log_sigma" rfl rfl).1,
    (gradient_accessor_never_reads_stale_deriv dummyOps exStateStale "log_sigma" rfl rfl).2.1⟩

/-- Claim C9, counterexample: a null inference handle does not fail; the
helper silently returns null, contradicting the claimed descriptive error for
the null case. -/
theorem obtain_from_generic_null_cex :
    obtain_from_generic none = Except.ok none ∧
      obtain_from_generic none ≠
        Except.error "Provided inference is not of type FITCInferenceMethod!" := by
  constructor
  · rfl
  · simp [obtain_from_generic]

/-- Claim C9, amended: for a non-null inference object whose inference type is
not FITC regression, `obtain_from_generic` fails with the descriptive error
naming the expected type; a null handle is passed through as null without an
error. -/
theorem obtain_from_generic_typecheck (inf : InferenceObj)
    (h : inf.inferenceType ≠ InferenceType.INF_FITC_REGRESSION) :
    obtain_from_generic (some inf) =
      Except.error "Provided inference is not of type FITCInferenceMethod!" ∧
    obtain_from_generic none = Except.ok none := by
  constructor
  · simp [obtain_from_generic, h]
  · rfl

/-- Claim C9, witness: a Laplace-type inference object is rejected with the
descriptive error. -/
theorem obtain_from_generic_typecheck_witness :
    (InferenceObj.mk InferenceType.INF_LAPLACE_SINGLE).inferenceType ≠
        InferenceType.INF_FITC_REGRESSION ∧
      obtain_from_generic (some (InferenceObj.mk InferenceType.INF_LAPLACE_SINGLE)) =
        Except.error "Provided inference is not of type FITCInferenceMethod!" ∧
      obtain_from_generic none = Except.ok none :=
  ⟨by decide,
    (obtain_from_generic_typecheck (InferenceObj.mk InferenceType.INF_LAPLACE_SINGLE)
      (by decide)).1,
    (obtain_from_generic_typecheck (InferenceObj.mk InferenceType.INF_LAPLACE_SINGLE)
      (by decide)).2⟩

/-- Claim C10: the matrix returned by `get_posterior_covariance` is a function
only of the factorization state produced by `update` (V, chol_utr,
Ktrtr_diag, log_scale): two hash-clean states agreeing on those fields yield
equal outputs, regardless of the derivative quantities al, B, w, Rvdd. -/
theorem posterior_covariance_factorization_only (ops : AlgebraOps R) (s1 s2 : State R m n)
    (h1 : parameter_hash_changed s1 = false) (h2 : parameter_hash_changed s2 = false)
    (hV : s1.V = s2.V) (hLu : s1.chol_utr = s2.chol_utr)
    (hd : s1.ktrtr_diag = s2.ktrtr_diag) (hls : s1.log_scale = s2.log_scale) :
    (get_posterior_covariance ops s1).2 = (get_posterior_covariance ops s2).2 := by
  obtain ⟨e1V, e1Lu, e1d, e1ls⟩ := compute_gradient_preserves ops s1 h1
  obtain ⟨e2V, e2Lu, e2d, e2ls⟩ := compute_gradient_preserves ops s2 h2
  rw [get_posterior_covariance_val, get_posterior_covariance_val]
  have ep1 : cov_part1 ops (compute_gradient ops s1) = cov_part1 ops (compute_gradient ops s2) := by
    unfold cov_part1; rw [e1V, e1Lu, e2V, e2Lu, hV, hLu]
  have ep2 : cov_part2 ops (compute_gradient ops s1) = cov_part2 ops (compute_gradient ops s2) := by
    funext i; unfold cov_part2; rw [e1V, e1d, e1ls, e2V, e2d, e2ls, hV, hd, hls]
  rw [ep1, ep2]

/-- Claim C10, witness: two concrete clean states differing only in the stale
derivative vector al yield the same posterior covariance. -/
theorem posterior_covariance_factorization_only_witness :
    parameter_hash_changed exState = false ∧ parameter_hash_changed exStateAl = false ∧
      exState.V = exStateAl.V ∧ exState.chol_utr = exStateAl.chol_utr ∧
      (get_posterior_covariance dummyOps exState).2 =
        (get_posterior_covariance dummyOps exStateAl).2 :=
  ⟨rfl, rfl, rfl, rfl,
    posterior_covariance_factorization_only dummyOps exState exStateAl rfl rfl rfl rfl rfl rfl⟩

end FITC
